import Mathlib

/-!
# Product form controller (`service/static/js/rest_api.js`)

A shallow embedding of the browser-side controller.  The DOM elements the
script touches are the fields of `Page`; every click handler is split into its
synchronous part (`*_click`, which reads the form, empties the flash area and
builds the request) and its two completion callbacks (`*_done`, `*_fail`).
`perform` is a click followed by the callback for the server's answer, and
`run` a sequence of such actions and of edits of the inputs by the user.

The script relies on the JavaScript language and on jQuery.  The parts of
their documented behaviour that the handlers use are modelled first:
truthiness, `||`, string conversion, `parseInt`, `.val(x)`, `.append(x)`,
`JSON.stringify` and `$.param`.  What the script sends and shows is read back
by two readers, one for the query string of a URL and one for the markup of
the results table.
-/

namespace RestApi

/-! ## JavaScript values -/

/-- Primitive JavaScript values found in a response.  `undefined` is what
reading an absent property gives.  The script never computes with a Number it
receives: it only converts it to a string and tests whether it is truthy.  A
received Number is therefore given by `text`, the string that
`Number::toString` produces for it (`"12"`, `"9.99"`, `"1e+21"`,
`"1152921504606847000"`); both zeros have the text `"0"`. -/
inductive JSValue where
  | undefined
  | null
  | bool (b : Bool)
  | number (text : String)
  | string (s : String)
  deriving DecidableEq

/-- JavaScript `ToBoolean`: a Number is falsy when it is a zero or `NaN`. -/
def truthy : JSValue → Bool
  | .undefined => false
  | .null => false
  | .bool b => b
  | .number text => text != "0" && text != "NaN"
  | .string s => s != ""

/-- JavaScript `a || b`: `a` when it is truthy, else `b`. -/
def jsOr (a b : JSValue) : JSValue :=
  if truthy a then a else b

/-- JavaScript `ToString`, as applied by a template literal. -/
def templateText : JSValue → String
  | .undefined => "undefined"
  | .null => "null"
  | .bool b => if b then "true" else "false"
  | .number text => text
  | .string s => s

/-- Text an input holds after jQuery `.val(x)`: `null` and `undefined` are
treated as the empty string, anything else is converted to a string. -/
def valText : JSValue → String
  | .undefined => ""
  | .null => ""
  | .bool b => if b then "true" else "false"
  | .number text => text
  | .string s => s

/-- Content jQuery `.append(x)` adds to an element for a primitive `x`:
nothing for a falsy value other than a zero, the string form otherwise (a
string is added as markup). -/
def appendText : JSValue → String
  | .undefined => ""
  | .null => ""
  | .bool b => if b then "true" else ""
  | .number text => if text = "NaN" then "" else text
  | .string s => s

/-! ## Records, responses and the page -/

/-- Product record of a success response: its five properties. -/
structure Product where
  id : JSValue
  name : JSValue
  description : JSValue
  price : JSValue
  likes : JSValue
  deriving DecidableEq

/-- JSON body of a failure response; `message` is `undefined` when absent. -/
structure ResponseJSON where
  message : JSValue
  deriving DecidableEq

/-- The jqXHR object handed to a `fail` callback; `responseJSON` is absent
when the response carried no JSON. -/
structure JqXHR where
  responseJSON : Option ResponseJSON
  deriving DecidableEq

/-- JavaScript `res.responseJSON?.message`. -/
def JqXHR.message (res : JqXHR) : JSValue :=
  match res.responseJSON with
  | none => .undefined
  | some body => body.message

/-- The DOM state the script reads and writes: the five inputs, the
`disabled` property of `#like-btn`, and the contents of `#flash_message` and
`#search_results` (the empty string when the element has no content). -/
structure Page where
  product_id : String
  product_name : String
  product_description : String
  product_price : String
  product_likes : String
  like_btn_disabled : Bool
  flash_message : String
  search_results : String
  deriving DecidableEq

/-! ## Utility functions -/

/-- Source `update_form_data(res)`. -/
def update_form_data (res : Product) (p : Page) : Page :=
  { p with
    product_id := valText res.id
    product_name := valText res.name
    product_description := valText res.description
    product_price := valText res.price
    product_likes := valText res.likes
    like_btn_disabled := false }

/-- Source `clear_form_data()`. -/
def clear_form_data (p : Page) : Page :=
  { p with
    product_id := ""
    product_name := ""
    product_description := ""
    product_price := ""
    product_likes := ""
    like_btn_disabled := true }

/-- Source `$("#flash_message").empty()`. -/
def empty_flash (p : Page) : Page :=
  { p with flash_message := "" }

/-- Source `flash_message(message)`: empty the flash area, then append. -/
def flash_message (message : JSValue) (p : Page) : Page :=
  { empty_flash p with flash_message := (empty_flash p).flash_message ++ appendText message }

/-! ## `parseInt` -/

/-- White space that `parseInt` skips at the start of its input: the
ECMAScript `WhiteSpace` and `LineTerminator` code points. -/
def isStrWhiteSpaceChar (c : Char) : Bool :=
  let n := c.toNat
  n == 0x09 || n == 0x0A || n == 0x0B || n == 0x0C || n == 0x0D || n == 0x20 ||
  n == 0xA0 || n == 0x1680 || (0x2000 ≤ n && n ≤ 0x200A) || n == 0x2028 ||
  n == 0x2029 || n == 0x202F || n == 0x205F || n == 0x3000 || n == 0xFEFF

/-- Value of a character read as a digit (`0-9`, then letters for ten and up). -/
def digitValue (c : Char) : Option Nat :=
  let n := c.toNat
  if 48 ≤ n ∧ n ≤ 57 then some (n - 48)
  else if 97 ≤ n ∧ n ≤ 122 then some (n - 87)
  else if 65 ≤ n ∧ n ≤ 90 then some (n - 55)
  else none

/-- Value of a character as a digit of radix `R`, if it is one. -/
def radixDigit (R : Nat) (c : Char) : Option Nat :=
  match digitValue c with
  | some d => if d < R then some d else none
  | none => none

/-- The digits of the longest run of radix-`R` digits that starts the input. -/
def leadingDigits (R : Nat) : List Char → List Nat
  | [] => []
  | c :: cs =>
    match radixDigit R c with
    | some d => d :: leadingDigits R cs
    | none => []

/-- Integer denoted by a digit list in radix `R`. -/
def radixValue (R : Nat) (ds : List Nat) : Nat :=
  ds.foldl (fun acc d => acc * R + d) 0

/-- Steps 1 to 13 of ECMAScript `parseInt(string)` with no radix argument:
skip leading white space, read a sign, read `0x`/`0X` (radix 16, else 10),
read the longest run of digits.  The result is `none` when that run is empty,
else the sign (true for `-`) and the mathematical integer the run denotes. -/
def parseIntDigits (s : String) : Option (Bool × Nat) :=
  let S := s.toList.dropWhile isStrWhiteSpaceChar
  let negative := match S with
    | c :: _ => c.toNat == 45
    | [] => false
  let S1 := match S with
    | c :: rest => if c.toNat == 43 || c.toNat == 45 then rest else S
    | [] => S
  let RS : Nat × List Char := match S1 with
    | c0 :: cx :: rest =>
      if c0.toNat == 48 && (cx.toNat == 120 || cx.toNat == 88) then (16, rest) else (10, S1)
    | _ => (10, S1)
  let Z := leadingDigits RS.1 RS.2
  if Z.isEmpty then none else some (negative, radixValue RS.1 Z)

/-- Number of binary digits of `m`, by repeated halving (`fuel` bounds the
number of halvings). -/
def bitLengthAux : Nat → Nat → Nat
  | 0, _ => 0
  | fuel + 1, m => if m = 0 then 0 else bitLengthAux fuel (m / 2) + 1

/-- Number of binary digits of `m`. -/
def bitLength (m : Nat) : Nat :=
  bitLengthAux m m

/-- The Number value for a natural number `m`: `m` rounded to the nearest
IEEE 754 double (53 significant bits), ties to even; `none` when the rounded
value needs more than 1024 bits, that is when it is `2 ^ 1024` or more, which
is `Infinity`. -/
def roundToDouble (m : Nat) : Option Nat :=
  if m < 2 ^ 53 then some m
  else
    let e := bitLength m - 53
    let q := m / 2 ^ e
    let r := m % 2 ^ e
    let half := 2 ^ (e - 1)
    let q1 := if half < r ∨ (r = half ∧ q % 2 = 1) then q + 1 else q
    let v := q1 * 2 ^ e
    if bitLength v ≤ 1024 then some v else none

/-- A Number the script computes: `NaN`, or `valueFor negative m`, the Number
value for the integer `m` with the sign given, that is `m` rounded to the
nearest double, an infinity when `roundToDouble m` is `none`. -/
inductive JSNumber where
  | nan
  | valueFor (negative : Bool) (m : Nat)

/-- JavaScript `ToBoolean` on a computed Number: falsy for `NaN` and for the
zeros (an integer rounds to a zero only when it is zero). -/
def JSNumber.truthy : JSNumber → Bool
  | .nan => false
  | .valueFor _ m => m != 0

/-- JavaScript `a || b` on computed Numbers. -/
def numberOr (a b : JSNumber) : JSNumber :=
  if a.truthy then a else b

/-- ECMAScript `parseInt(string)`: `NaN` without a digit run, else the Number
value for the signed integer read.  (For radix 10 an implementation may
replace every digit after the 20th significant one by `0` before rounding;
this model rounds the exact integer, and both agree on texts of at most 20
significant digits and on texts whose later digits are all `0`.) -/
def parseInt (s : String) : JSNumber :=
  match parseIntDigits s with
  | none => .nan
  | some (negative, m) => .valueFor negative m

/-- The integer a text parses to, without the rounding to a Number: `none`
when `parseInt` finds no digit run. -/
def parsedInteger (s : String) : Option Int :=
  match parseIntDigits s with
  | none => none
  | some (negative, m) => some (if negative then -(m : Int) else (m : Int))

/-! ## Requests -/

/-- What `JSON.stringify` writes for a member of the request body: `null`, a
string, or `number n`, the number token of the Number with value `n` (its
`Number::toString`, which is the decimal form of `n` for magnitudes up to
`2 ^ 53`). -/
inductive Json where
  | null
  | number (n : Int)
  | string (s : String)
  deriving DecidableEq

/-- What `JSON.stringify` writes for a computed Number: `null` for `NaN` and
the infinities, the number token of its value otherwise. -/
def JSON_number : JSNumber → Json
  | .nan => .null
  | .valueFor negative m =>
    match roundToDouble m with
    | none => .null
    | some v => .number (if negative then -(v : Int) else (v : Int))

/-- The `data` object literal of the Create and Update handlers. -/
structure ProductData where
  name : String
  description : String
  price : String
  likes : JSNumber

/-- The `data` option of a request: a text, or the JSON object that
`JSON.stringify(data)` writes, as its members in order. -/
inductive RequestData where
  | text (s : String)
  | json (members : List (String × Json))
  deriving DecidableEq

/-- JavaScript `JSON.stringify(data)` for the `data` object of Create and
Update: its four members in the order of the object literal. -/
def JSON_stringify (data : ProductData) : RequestData :=
  .json [("name", .string data.name), ("description", .string data.description),
    ("price", .string data.price), ("likes", JSON_number data.likes)]

/-- The settings object passed to `$.ajax`. -/
structure AjaxRequest where
  type : String
  url : String
  contentType : String
  data : RequestData
  deriving DecidableEq

/-! ## Create, Update, Retrieve, Delete, Clear, Like -/

/-- Source `#create-btn` click handler, up to the `$.ajax` call. -/
def create_click (p : Page) : Page × AjaxRequest :=
  let name := p.product_name
  let description := p.product_description
  let price := p.product_price
  let likes := numberOr (parseInt p.product_likes) (.valueFor false 0)
  let data : ProductData :=
    { name := name, description := description, price := price, likes := likes }
  (empty_flash p,
    { type := "POST", url := "/products", contentType := "application/json",
      data := JSON_stringify data })

/-- Source `#create-btn` `ajax.done` callback. -/
def create_done (res : Product) (p : Page) : Page :=
  flash_message (.string "Success") (update_form_data res p)

/-- Source `#create-btn` `ajax.fail` callback. -/
def create_fail (res : JqXHR) (p : Page) : Page :=
  flash_message (jsOr res.message (.string "Error creating product")) p

/-- Source `#update-btn` click handler, up to the `$.ajax` call. -/
def update_click (p : Page) : Page × AjaxRequest :=
  let product_id := p.product_id
  let name := p.product_name
  let description := p.product_description
  let price := p.product_price
  let likes := numberOr (parseInt p.product_likes) (.valueFor false 0)
  let data : ProductData :=
    { name := name, description := description, price := price, likes := likes }
  (empty_flash p,
    { type := "PUT", url := "/products/" ++ product_id, contentType := "application/json",
      data := JSON_stringify data })

/-- Source `#update-btn` `ajax.done` callback. -/
def update_done (res : Product) (p : Page) : Page :=
  flash_message (.string "Success") (update_form_data res p)

/-- Source `#update-btn` `ajax.fail` callback. -/
def update_fail (res : JqXHR) (p : Page) : Page :=
  flash_message (jsOr res.message (.string "Error updating product")) p

/-- Source `#retrieve-btn` click handler, up to the `$.ajax` call. -/
def retrieve_click (p : Page) : Page × AjaxRequest :=
  let product_id := p.product_id
  (empty_flash p,
    { type := "GET", url := "/products/" ++ product_id, contentType := "application/json",
      data := .text "" })

/-- Source `#retrieve-btn` `ajax.done` callback. -/
def retrieve_done (res : Product) (p : Page) : Page :=
  flash_message (.string "Success") (update_form_data res p)

/-- Source `#retrieve-btn` `ajax.fail` callback. -/
def retrieve_fail (res : JqXHR) (p : Page) : Page :=
  flash_message (jsOr res.message (.string "Error retrieving product")) (clear_form_data p)

/-- Source `#delete-btn` click handler, up to the `$.ajax` call. -/
def delete_click (p : Page) : Page × AjaxRequest :=
  let product_id := p.product_id
  (empty_flash p,
    { type := "DELETE", url := "/products/" ++ product_id, contentType := "application/json",
      data := .text "" })

/-- Source `#delete-btn` `ajax.done` callback (its argument is not used). -/
def delete_done (p : Page) : Page :=
  flash_message (.string "Product has been Deleted!") (clear_form_data p)

/-- Source `#delete-btn` `ajax.fail` callback. -/
def delete_fail (res : JqXHR) (p : Page) : Page :=
  flash_message (jsOr res.message (.string "Error deleting product")) p

/-- Source `#clear-btn` click handler. -/
def clear_click (p : Page) : Page :=
  empty_flash (clear_form_data p)

/-- Source `#like-btn` click handler, up to the `$.ajax` call; no request
when the id field is empty (`if (!id) return;`). -/
def like_click (p : Page) : Page × Option AjaxRequest :=
  let id := p.product_id
  if id = "" then (p, none)
  else
    (empty_flash p,
      some { type := "PUT", url := "/products/" ++ id ++ "/like",
             contentType := "application/json", data := .text "" })

/-- Source `#like-btn` `ajax.done` callback. -/
def like_done (res : Product) (p : Page) : Page :=
  flash_message (.string "Product liked") { p with product_likes := valText res.likes }

/-- Source `#like-btn` `ajax.fail` callback. -/
def like_fail (res : JqXHR) (p : Page) : Page :=
  flash_message (jsOr res.message (.string "Error liking product")) p

/-! ## Search -/

/-- Characters `encodeURIComponent` leaves as they are: letters, digits and
`- _ . ! ~ * ' ( )`. -/
def isUriUnreserved (c : Char) : Bool :=
  let n := c.toNat
  (48 ≤ n && n ≤ 57) || (65 ≤ n && n ≤ 90) || (97 ≤ n && n ≤ 122) ||
  n == 45 || n == 95 || n == 46 || n == 33 || n == 126 || n == 42 || n == 39 ||
  n == 40 || n == 41

/-- UTF-8 bytes of a character. -/
def utf8Bytes (c : Char) : List Nat :=
  let n := c.toNat
  if n < 0x80 then [n]
  else if n < 0x800 then [0xC0 + n / 64, 0x80 + n % 64]
  else if n < 0x10000 then [0xE0 + n / 4096, 0x80 + n / 64 % 64, 0x80 + n % 64]
  else [0xF0 + n / 262144, 0x80 + n / 4096 % 64, 0x80 + n / 64 % 64, 0x80 + n % 64]

/-- Upper-case hexadecimal digit. -/
def hexDigit (d : Nat) : Char :=
  if d < 10 then Char.ofNat (48 + d) else Char.ofNat (55 + d)

/-- Percent escape `%XX` of one byte. -/
def percentByte (b : Nat) : List Char :=
  ['%', hexDigit (b / 16), hexDigit (b % 16)]

/-- What `encodeURIComponent` writes for one character. -/
def encodeChar (c : Char) : List Char :=
  if isUriUnreserved c then [c] else (utf8Bytes c).flatMap percentByte

/-- JavaScript `encodeURIComponent(s)`: every character other than the
unreserved ones is replaced by the percent escapes of its UTF-8 bytes.  (A
string here has no lone surrogate, the one input for which JavaScript
throws.) -/
def encodeURIComponent (s : String) : String :=
  String.mk (s.toList.flatMap encodeChar)

/-- jQuery `$.param(params)` (jQuery 3) for an object whose own properties,
in insertion order, are the string pairs `params`: `key=value` items, both
sides encoded with `encodeURIComponent`, joined with `&`. -/
def param (params : List (String × String)) : String :=
  "&".intercalate (params.map fun kv => encodeURIComponent kv.1 ++ "=" ++ encodeURIComponent kv.2)

/-- The filter collection of the `#search-btn` click handler: the `params`
object after the three conditional assignments. -/
def search_params (p : Page) : List (String × String) :=
  let params : List (String × String) := []
  let name := p.product_name
  let description := p.product_description
  let price := p.product_price
  let params := if name ≠ "" then params ++ [("name", name)] else params
  let params := if description ≠ "" then params ++ [("description", description)] else params
  let params := if price ≠ "" then params ++ [("price", price)] else params
  params

/-- Source `#search-btn` click handler, up to the `$.ajax` call. -/
def search_click (p : Page) : Page × AjaxRequest :=
  let params := search_params p
  let qs := param params
  (empty_flash p,
    { type := "GET", url := "/products" ++ (if qs ≠ "" then "?" ++ qs else ""),
      contentType := "application/json", data := .text "" })

/-- JavaScript `arr.forEach((x, i) => ...)` for a callback that updates the
variables `σ` it closes over; `i` is the index of the first element left. -/
def forEach {α σ : Type} (f : σ → α → Nat → σ) : List α → Nat → σ → σ
  | [], _, st => st
  | x :: xs, i, st => forEach f xs (i + 1) (f st x i)

/-- The markup one pass of the search loop adds to `table`. -/
def search_row (product : Product) (i : Nat) : String :=
  "<tr id=\"row_" ++ toString i ++ "\">"
    ++ "<td>" ++ templateText product.id ++ "</td>"
    ++ "<td>" ++ templateText product.name ++ "</td>"
    ++ "<td>" ++ templateText product.description ++ "</td>"
    ++ "<td>" ++ templateText product.price ++ "</td>"
    ++ "<td>" ++ templateText product.likes ++ "</td>"
    ++ "</tr>"

/-- Body of the `res.forEach` callback of the search handler, on the two
variables it updates: `table` and `firstProduct`. -/
def search_each (st : String × Option Product) (product : Product) (i : Nat) :
    String × Option Product :=
  let table := st.1 ++ search_row product i
  let firstProduct := if i = 0 then some product else st.2
  (table, firstProduct)

/-- Markup of the table up to and including `<tbody>`. -/
def search_table_head : String :=
  "<table class=\"table table-striped\" cellpadding=\"10\">"
    ++ "<thead><tr>"
    ++ "<th>ID</th><th>Name</th><th>Description</th><th>Price</th><th>Likes</th>"
    ++ "</tr></thead><tbody>"

/-- Source `#search-btn` `ajax.done` callback. -/
def search_done (res : List Product) (p : Page) : Page :=
  let p1 := { p with search_results := "" }
  let table := search_table_head
  let firstProduct : Option Product := none
  let st := forEach search_each res 0 (table, firstProduct)
  let table := st.1 ++ "</tbody></table>"
  let p2 := { p1 with search_results := p1.search_results ++ table }
  let p3 := match st.2 with
    | some product => update_form_data product p2
    | none => p2
  flash_message (.string "Success") p3

/-- Source `#search-btn` `ajax.fail` callback. -/
def search_fail (res : JqXHR) (p : Page) : Page :=
  flash_message (jsOr res.message (.string "Error searching products")) p

/-! ## Whole actions -/

/-- How the server answers a request: success with a payload, or failure. -/
inductive Outcome (α : Type) where
  | done (res : α)
  | fail (res : JqXHR)

/-- One of the seven button clicks together with the answer its request gets. -/
inductive Action where
  | create (o : Outcome Product)
  | update (o : Outcome Product)
  | retrieve (o : Outcome Product)
  | delete (o : Outcome Unit)
  | clear
  | search (o : Outcome (List Product))
  | like (o : Outcome Product)

/-- The page after an action has run to completion: the click handler, then
the callback for the answer.  Like sends no request when the id is empty, and
then no callback runs. -/
def perform : Action → Page → Page
  | .create (.done res), p => create_done res (create_click p).1
  | .create (.fail res), p => create_fail res (create_click p).1
  | .update (.done res), p => update_done res (update_click p).1
  | .update (.fail res), p => update_fail res (update_click p).1
  | .retrieve (.done res), p => retrieve_done res (retrieve_click p).1
  | .retrieve (.fail res), p => retrieve_fail res (retrieve_click p).1
  | .delete (.done _), p => delete_done (delete_click p).1
  | .delete (.fail res), p => delete_fail res (delete_click p).1
  | .clear, p => clear_click p
  | .search (.done res), p => search_done res (search_click p).1
  | .search (.fail res), p => search_fail res (search_click p).1
  | .like o, p =>
    match like_click p, o with
    | (p1, none), _ => p1
    | (p1, some _), .done res => like_done res p1
    | (p1, some _), .fail res => like_fail res p1

/-- The five inputs of the form. -/
inductive Field where
  | id
  | name
  | description
  | price
  | likes
  deriving DecidableEq

/-- The page after the user has put `text` in one input. -/
def Page.input (f : Field) (text : String) (p : Page) : Page :=
  match f with
  | .id => { p with product_id := text }
  | .name => { p with product_name := text }
  | .description => { p with product_description := text }
  | .price => { p with product_price := text }
  | .likes => { p with product_likes := text }

/-- What happens on the page between two states: the user edits an input, or
clicks a button and the request completes. -/
inductive Step where
  | edit (f : Field) (text : String)
  | act (a : Action)

/-- The page after one step. -/
def Step.apply : Step → Page → Page
  | .edit f text, p => p.input f text
  | .act a, p => perform a p

/-- The page after a sequence of steps, each completed before the next. -/
def run (steps : List Step) (p : Page) : Page :=
  steps.foldl (fun q s => s.apply q) p

/-- The page as `clear_form_data` leaves it, with nothing flashed or listed. -/
def cleared : Page :=
  { product_id := "", product_name := "", product_description := "", product_price := "",
    product_likes := "", like_btn_disabled := true, flash_message := "", search_results := "" }

/-- A page with a record loaded, used to evaluate the handlers. -/
def loaded : Page :=
  { product_id := "7", product_name := "cup", product_description := "blue", product_price := "3",
    product_likes := "2", like_btn_disabled := false, flash_message := "", search_results := "" }

/-- A record as the server returns it. -/
def sample : Product :=
  { id := .number "1", name := .string "foo", description := .string "d",
    price := .string "9", likes := .number "3" }

/-! ## Notions used to state the claims -/

/-- A form field showing `shown` holds the record field `v`: the string
itself, the decimal text of a Number, `true` or `false` for a boolean, and
nothing for a field that is absent or `null`. -/
def fieldHolds (shown : String) : JSValue → Prop
  | .undefined => shown = ""
  | .null => shown = ""
  | .bool b => shown = (if b then "true" else "false")
  | .number text => shown = text
  | .string s => shown = s

/-- The page shows the record and reports success: each of the five form
fields holds the corresponding field of `res`, the like button is enabled and
the flash message is "Success". -/
def showsRecord (res : Product) (q : Page) : Prop :=
  fieldHolds q.product_id res.id ∧ fieldHolds q.product_name res.name ∧
  fieldHolds q.product_description res.description ∧ fieldHolds q.product_price res.price ∧
  fieldHolds q.product_likes res.likes ∧ q.like_btn_disabled = false ∧
  q.flash_message = "Success"

/-- Whether a value is a non-empty string or a Number with a non-empty text,
that is, an id that displays as a non-empty text. -/
def displaysId : JSValue → Bool
  | .string s => s != ""
  | .number text => text != ""
  | .bool _ => true
  | _ => false

/-- Whether the success record that an action puts in the form, if any,
has an id that displays as a non-empty text. -/
def carriesId : Action → Bool
  | .create (.done res) => displaysId res.id
  | .update (.done res) => displaysId res.id
  | .retrieve (.done res) => displaysId res.id
  | .search (.done (first :: _)) => displaysId first.id
  | _ => true

/-- Whether the completion of an action writes the whole form: it loads a
record (`update_form_data`) or clears (`clear_form_data`). -/
def writesForm : Action → Bool
  | .create (.done _) => true
  | .update (.done _) => true
  | .retrieve _ => true
  | .delete (.done _) => true
  | .clear => true
  | .search (.done (_ :: _)) => true
  | _ => false

/-- Whether a step is an edit of the id input by the user. -/
def Step.editsId : Step → Bool
  | .edit .id _ => true
  | _ => false

/-- Whether a step is free of a loaded record without id. -/
def Step.carriesId : Step → Bool
  | .edit _ _ => true
  | .act a => RestApi.carriesId a

/-- The like button is enabled exactly when the id field is not empty. -/
def buttonFollowsId (q : Page) : Prop :=
  q.like_btn_disabled = false ↔ q.product_id ≠ ""

/-- A likes text of 310 digits: `1` followed by 309 zeros. -/
def hugeLikes : String :=
  String.mk (Char.ofNat 49 :: List.replicate 309 (Char.ofNat 48))

/-! ## Reading a request URL -/

/-- Value of a hexadecimal digit. -/
def hexValue (c : Char) : Nat :=
  (digitValue c).getD 0

/-- Bytes that a percent-encoded text stands for, as a reader of
`application/x-www-form-urlencoded` data takes them: `%XX` is the byte `XX`,
`+` is a space, any other character is its own code. -/
def unescapeBytes : List Char → List Nat
  | [] => []
  | c :: rest =>
    if c = '%' then
      match rest with
      | a :: b :: rest2 => (hexValue a * 16 + hexValue b) :: unescapeBytes rest2
      | _ => []
    else if c = '+' then 32 :: unescapeBytes rest
    else c.toNat :: unescapeBytes rest

/-- State of a UTF-8 reader: the characters read, the bits gathered for the
character being read, and the number of continuation bytes it still needs. -/
structure Utf8State where
  out : List Char
  acc : Nat
  need : Nat

/-- The UTF-8 reader takes one byte: a lead byte starts a character of one to
four bytes, a continuation byte adds six bits to it. -/
def utf8Step (st : Utf8State) (b : Nat) : Utf8State :=
  if st.need = 0 then
    if b < 0x80 then { out := st.out ++ [Char.ofNat b], acc := 0, need := 0 }
    else if b < 0xE0 then { out := st.out, acc := b - 0xC0, need := 1 }
    else if b < 0xF0 then { out := st.out, acc := b - 0xE0, need := 2 }
    else { out := st.out, acc := b - 0xF0, need := 3 }
  else if st.need = 1 then
    { out := st.out ++ [Char.ofNat (st.acc * 64 + (b - 0x80))], acc := 0, need := 0 }
  else { out := st.out, acc := st.acc * 64 + (b - 0x80), need := st.need - 1 }

/-- Characters that a UTF-8 byte sequence stands for. -/
def utf8Decode (bytes : List Nat) : List Char :=
  (bytes.foldl utf8Step { out := [], acc := 0, need := 0 }).out

/-- The text a percent-encoded component stands for. -/
def decodeComponent (s : List Char) : String :=
  String.mk (utf8Decode (unescapeBytes s))

/-- The pieces of a text between occurrences of `sep`. -/
def splitOn (sep : Char) : List Char → List (List Char)
  | [] => [[]]
  | c :: cs =>
    if c = sep then [] :: splitOn sep cs
    else
      match splitOn sep cs with
      | [] => [[c]]
      | piece :: pieces => (c :: piece) :: pieces

/-- Path of a URL: what stands before the first `?`. -/
def urlPath (url : String) : String :=
  String.mk (url.toList.takeWhile (fun c => c != '?'))

/-- Query string of a URL: what stands after the first `?`. -/
def urlQuery (url : String) : List Char :=
  (url.toList.dropWhile (fun c => c != '?')).drop 1

/-- One `key=value` item of a query string, decoded. -/
def queryItem (item : List Char) : String × String :=
  (decodeComponent (item.takeWhile (fun c => c != '=')),
    decodeComponent ((item.dropWhile (fun c => c != '=')).drop 1))

/-- Query parameters of a URL, as the server that receives it reads them:
none without a query string, else the `&`-separated items, each cut at its
first `=` and decoded, in order. -/
def queryParams (url : String) : List (String × String) :=
  if (urlQuery url).isEmpty then [] else (splitOn '&' (urlQuery url)).map queryItem

/-! ## Reading the results table -/

/-- A piece of markup: a tag, given by what stands between `<` and `>`, or a
run of text. -/
inductive Token where
  | tag (s : List Char)
  | text (s : List Char)
  deriving DecidableEq

/-- State of the markup reader: the pieces read, the characters of the piece
being read, and whether that piece is a tag. -/
structure LexState where
  tokens : List Token
  buf : List Char
  inTag : Bool
  deriving DecidableEq

/-- The markup reader takes one character: `<` ends a run of text and opens a
tag, `>` closes the tag. -/
def lexStep (st : LexState) (c : Char) : LexState :=
  if st.inTag then
    if c = '>' then { tokens := st.tokens ++ [.tag st.buf], buf := [], inTag := false }
    else { tokens := st.tokens, buf := st.buf ++ [c], inTag := true }
  else if c = '<' then
    { tokens := if st.buf.isEmpty then st.tokens else st.tokens ++ [.text st.buf],
      buf := [], inTag := true }
  else { tokens := st.tokens, buf := st.buf ++ [c], inTag := false }

/-- The tags and runs of text of a markup string. -/
def lex (s : List Char) : List Token :=
  let st := s.foldl lexStep { tokens := [], buf := [], inTag := false }
  if st.inTag || st.buf.isEmpty then st.tokens else st.tokens ++ [.text st.buf]

/-- Name of a tag: what stands before its first space. -/
def tagName (s : List Char) : String :=
  String.mk (s.takeWhile (fun c => c != ' '))

/-- State of the table reader: the finished rows of the table body, the cells
of the open row, the text of the open cell, and whether the body is open. -/
structure TableState where
  rows : List (List String)
  row : Option (List String)
  cell : Option (List Char)
  inBody : Bool
  deriving DecidableEq

/-- The table reader takes one piece of markup: `tr` and `td` elements inside
`tbody` make the rows and their cells, text inside a cell is the cell's text,
anything else is passed over. -/
def tableStep (st : TableState) : Token → TableState
  | .text s =>
    match st.cell with
    | some t => { st with cell := some (t ++ s) }
    | none => st
  | .tag s =>
    if tagName s = "tbody" then { st with inBody := true }
    else if tagName s = "/tbody" then { st with inBody := false }
    else if tagName s = "tr" then
      if st.inBody then { st with row := some [], cell := none } else st
    else if tagName s = "/tr" then
      match st.row with
      | some cells => { st with rows := st.rows ++ [cells], row := none, cell := none }
      | none => st
    else if tagName s = "td" then
      if st.row.isSome then { st with cell := some [] } else st
    else if tagName s = "/td" then
      match st.row, st.cell with
      | some cells, some t => { st with row := some (cells ++ [String.mk t]), cell := none }
      | _, _ => st
    else st

/-- The rows that the body of a table shows, each as the texts of its cells,
read from the markup of the table (no character references, which
`plainText` rules out). -/
def tableRows (markup : String) : List (List String) :=
  ((lex markup.toList).foldl tableStep
    { rows := [], row := none, cell := none, inBody := false }).rows

/-- Whether a text is shown as it is when it stands in markup: it has no `<`
(start of a tag), no `&` (start of a character reference), and neither of
the characters NUL and CR, which the HTML reader drops or replaces. -/
def plainText (s : String) : Bool :=
  s.toList.all fun c => c != '<' && c != '&' && c.toNat != 0 && c.toNat != 13

/-- The text that stands for a record field in a table cell: a string as it
is, a Number by its decimal text, `true` or `false`, and the words `null`
and `undefined` for a field that is `null` or absent. -/
def cellText : JSValue → String
  | .undefined => "undefined"
  | .null => "null"
  | .bool true => "true"
  | .bool false => "false"
  | .number text => text
  | .string s => s

/-- The five cell texts of the row for a record, in the order of the table
head: id, name, description, price, likes. -/
def rowTexts (r : Product) : List String :=
  [cellText r.id, cellText r.name, cellText r.description, cellText r.price, cellText r.likes]

/-- Whether the five cell texts of a record are plain. -/
def plainRecord (r : Product) : Bool :=
  (rowTexts r).all plainText

/-- A record whose description holds markup: the end of its own row and the
start of another one. -/
def injected : Product :=
  { id := .number "1", name := .string "a",
    description := .string "d</td><td>9</td><td>2</td></tr><tr id=\"row_1\"><td>2</td><td>b</td><td>d",
    price := .string "9", likes := .number "2" }

/-! ## Notions used in the proofs about the table -/

/-- The reader's state between two pieces of markup. -/
def lexed (ts : List Token) : LexState :=
  { tokens := ts, buf := [], inTag := false }

/-- The piece that a run of text gives: none when the run is empty. -/
def textTokens (t : List Char) : List Token :=
  if t.isEmpty then [] else [.text t]

/-- The pieces of one cell with the text `t`. -/
def cellTokens (t : List Char) : List Token :=
  .tag ['t', 'd'] :: (textTokens t ++ [.tag ['/', 't', 'd']])

/-- The pieces of one row with the index text `idx` and the cell texts
`texts`. -/
def rowTokens (idx : List Char) (texts : List (List Char)) : List Token :=
  .tag ('t' :: 'r' :: ' ' :: 'i' :: 'd' :: '=' :: '"' :: 'r' :: 'o' :: 'w' :: '_' :: (idx ++ ['"']))
    :: (texts.flatMap cellTokens ++ [.tag ['/', 't', 'r']])

/-- The characters of one cell with the text `t`, followed by `rest`. -/
def cellChars (t : List Char) (rest : List Char) : List Char :=
  '<' :: 't' :: 'd' :: '>' :: (t ++ '<' :: '/' :: 't' :: 'd' :: '>' :: rest)

/-- The texts that the search loop writes in the cells of a record. -/
def rowChars (r : Product) : List (List Char) :=
  [(templateText r.id).data, (templateText r.name).data, (templateText r.description).data,
    (templateText r.price).data, (templateText r.likes).data]

/-- The pieces of the table head. -/
def headTokens : List Token :=
  (search_table_head.data.foldl lexStep (lexed [])).tokens

/-- The table reader's state in the table body, between two rows. -/
def inBody (rows : List (List String)) : TableState :=
  { rows := rows, row := none, cell := none, inBody := true }

/-! ## Basic facts about the model -/

@[simp] theorem flash_message_fields (m : JSValue) (p : Page) :
    (flash_message m p).product_id = p.product_id ∧
    (flash_message m p).product_name = p.product_name ∧
    (flash_message m p).product_description = p.product_description ∧
    (flash_message m p).product_price = p.product_price ∧
    (flash_message m p).product_likes = p.product_likes ∧
    (flash_message m p).like_btn_disabled = p.like_btn_disabled ∧
    (flash_message m p).search_results = p.search_results := by
  simp [flash_message, empty_flash]

@[simp] theorem flash_message_text (m : JSValue) (p : Page) :
    (flash_message m p).flash_message = appendText m := by
  show "" ++ appendText m = appendText m
  exact String.empty_append _

/-- Text flashed by `flash_message(msg || dflt)`. -/
theorem appendText_jsOr (m : JSValue) (dflt : String) :
    appendText (jsOr m (.string dflt)) = if truthy m then appendText m else dflt := by
  unfold jsOr
  split <;> simp_all [appendText]

/-- What `.val(v)` leaves in an input holds `v`. -/
theorem fieldHolds_valText (v : JSValue) : fieldHolds (valText v) v := by
  cases v <;> simp [fieldHolds, valText]

/-! ## Claims on single actions -/

/-- C1: when a Create, Update or Retrieve request succeeds, each of the five
form fields afterwards holds the corresponding field of the response record
(a string as it is, a Number by its decimal text, an absent or `null` field as
the empty text), the like button is enabled and the flash message is
"Success". -/
theorem success_mirrors_record (p : Page) (res : Product) :
    showsRecord res (perform (.create (.done res)) p) ∧
    showsRecord res (perform (.update (.done res)) p) ∧
    showsRecord res (perform (.retrieve (.done res)) p) := by
  simp [showsRecord, perform, create_done, update_done, retrieve_done, update_form_data,
    appendText, fieldHolds_valText]

/-- C1, evaluated: after a successful Create, Update or Retrieve answered
with the sample record, the page that showed the cup shows `1`, `foo`, `d`,
`9`, `3`. -/
theorem success_mirrors_record_witness :
    (perform (.create (.done sample)) loaded).product_id = "1" ∧
    (perform (.create (.done sample)) loaded).product_name = "foo" ∧
    (perform (.update (.done sample)) loaded).product_description = "d" ∧
    (perform (.update (.done sample)) loaded).product_price = "9" ∧
    (perform (.retrieve (.done sample)) loaded).product_likes = "3" ∧
    (perform (.retrieve (.done sample)) loaded).like_btn_disabled = false ∧
    (perform (.retrieve (.done sample)) loaded).flash_message = "Success" :=
  ⟨(success_mirrors_record loaded sample).1.1,
    (success_mirrors_record loaded sample).1.2.1,
    (success_mirrors_record loaded sample).2.1.2.2.1,
    (success_mirrors_record loaded sample).2.1.2.2.2.1,
    (success_mirrors_record loaded sample).2.2.2.2.2.2.1,
    (success_mirrors_record loaded sample).2.2.2.2.2.2.2.1,
    (success_mirrors_record loaded sample).2.2.2.2.2.2.2.2⟩

/-- C2 (as stated, refuted): a Create failure whose JSON body has the field
`message` present, with the empty string as value, flashes the default text
and not the message. -/
theorem empty_message_flashes_default :
    (JqXHR.mk (some ⟨.string ""⟩)).message = .string "" ∧
    (perform (.create (.fail ⟨some ⟨.string ""⟩⟩)) loaded).flash_message
      = "Error creating product" ∧
    (perform (.create (.fail ⟨some ⟨.string ""⟩⟩)) loaded).flash_message ≠ "" := by
  decide

/-- C2 (amended): after a failure of any of the six requesting actions the
flash text is the response's `message` when that field is truthy, and the
fixed default of the action otherwise (field absent, or present with a falsy
value such as the empty string).  Like sends its request, and so can fail,
only when the id field is not empty. -/
theorem failure_flash_text (p : Page) (res : JqXHR) :
    (perform (.create (.fail res)) p).flash_message
      = (if truthy res.message then appendText res.message else "Error creating product") ∧
    (perform (.update (.fail res)) p).flash_message
      = (if truthy res.message then appendText res.message else "Error updating product") ∧
    (perform (.retrieve (.fail res)) p).flash_message
      = (if truthy res.message then appendText res.message else "Error retrieving product") ∧
    (perform (.delete (.fail res)) p).flash_message
      = (if truthy res.message then appendText res.message else "Error deleting product") ∧
    (perform (.search (.fail res)) p).flash_message
      = (if truthy res.message then appendText res.message else "Error searching products") ∧
    (p.product_id ≠ "" → (perform (.like (.fail res)) p).flash_message
      = (if truthy res.message then appendText res.message else "Error liking product")) := by
  refine ⟨?_, ?_, ?_, ?_, ?_, ?_⟩
  · simp [perform, create_fail, appendText_jsOr]
  · simp [perform, update_fail, appendText_jsOr]
  · simp [perform, retrieve_fail, appendText_jsOr]
  · simp [perform, delete_fail, appendText_jsOr]
  · simp [perform, search_fail, appendText_jsOr]
  · intro h
    simp [perform, like_click, h, like_fail, appendText_jsOr]

/-- C2 (amended), evaluated: a failed Like on a loaded page with the message
"Not found" flashes that message. -/
theorem failure_flash_text_witness :
    (perform (.like (.fail ⟨some ⟨.string "Not found"⟩⟩)) loaded).flash_message = "Not found" :=
  ((failure_flash_text loaded ⟨some ⟨.string "Not found"⟩⟩).2.2.2.2.2 (by decide)).trans
    (by decide)

/-- C3 (as stated, refuted): after a failed Delete on a loaded page the id
field still holds the id and the like button is still enabled. -/
theorem delete_failure_keeps_form :
    (perform (.delete (.fail ⟨none⟩)) loaded).product_id = "7" ∧
    (perform (.delete (.fail ⟨none⟩)) loaded).product_id ≠ "" ∧
    (perform (.delete (.fail ⟨none⟩)) loaded).like_btn_disabled = false := by
  decide

/-- C3 (amended): when a Delete request fails, the five form fields, the like
button and the results table are as they were before the click. -/
theorem delete_failure_frame (p : Page) (res : JqXHR) :
    (perform (.delete (.fail res)) p).product_id = p.product_id ∧
    (perform (.delete (.fail res)) p).product_name = p.product_name ∧
    (perform (.delete (.fail res)) p).product_description = p.product_description ∧
    (perform (.delete (.fail res)) p).product_price = p.product_price ∧
    (perform (.delete (.fail res)) p).product_likes = p.product_likes ∧
    (perform (.delete (.fail res)) p).like_btn_disabled = p.like_btn_disabled ∧
    (perform (.delete (.fail res)) p).search_results = p.search_results := by
  simp [perform, delete_fail, delete_click, empty_flash]

/-- C4: when a Retrieve request fails, all five form fields are empty
afterwards and the like button is disabled. -/
theorem retrieve_failure_clears (p : Page) (res : JqXHR) :
    (perform (.retrieve (.fail res)) p).product_id = "" ∧
    (perform (.retrieve (.fail res)) p).product_name = "" ∧
    (perform (.retrieve (.fail res)) p).product_description = "" ∧
    (perform (.retrieve (.fail res)) p).product_price = "" ∧
    (perform (.retrieve (.fail res)) p).product_likes = "" ∧
    (perform (.retrieve (.fail res)) p).like_btn_disabled = true := by
  simp [perform, retrieve_fail, clear_form_data]

/-- C7: with an empty id field the Like click sends no request and leaves the
whole page (form fields, like button, results table, flash area) as it was,
whatever a server would have answered. -/
theorem like_without_id_is_noop (p : Page) (h : p.product_id = "") :
    like_click p = (p, none) ∧ ∀ o, perform (.like o) p = p := by
  have hc : like_click p = (p, none) := by simp [like_click, h]
  refine ⟨hc, fun o => ?_⟩
  simp [perform, hc]

/-- C7, evaluated on the cleared page. -/
theorem like_without_id_is_noop_witness :
    cleared.product_id = "" ∧ like_click cleared = (cleared, none) ∧
    perform (.like (.done sample)) cleared = cleared :=
  ⟨rfl, (like_without_id_is_noop cleared rfl).1, (like_without_id_is_noop cleared rfl).2 _⟩

/-- C8: on a page with a non-empty id, after a successful Like the likes
field holds the `likes` of the response, and the id, name, description and
price fields are as before the click. -/
theorem like_success_frame (p : Page) (res : Product) (h : p.product_id ≠ "") :
    (perform (.like (.done res)) p).product_likes = valText res.likes ∧
    (perform (.like (.done res)) p).product_id = p.product_id ∧
    (perform (.like (.done res)) p).product_name = p.product_name ∧
    (perform (.like (.done res)) p).product_description = p.product_description ∧
    (perform (.like (.done res)) p).product_price = p.product_price := by
  simp [perform, like_click, h, like_done, empty_flash]

/-- C8, evaluated: liking the loaded record, whose likes field shows `2`,
when the server answers `likes: 3` in a record with other values. -/
theorem like_success_frame_witness :
    loaded.product_id ≠ "" ∧ loaded.product_likes = "2" ∧
    (perform (.like (.done sample)) loaded).product_likes = "3" ∧
    (perform (.like (.done sample)) loaded).product_id = "7" ∧
    (perform (.like (.done sample)) loaded).product_name = "cup" :=
  ⟨by decide, rfl, (like_success_frame loaded sample (by decide)).1.trans (by decide),
    (like_success_frame loaded sample (by decide)).2.1,
    (like_success_frame loaded sample (by decide)).2.2.1⟩


/-! ## The Search request -/

theorem intercalate_go_data (sep : String) (items : List String) (acc : String) :
    (String.intercalate.go acc sep items).data
      = acc.data ++ items.flatMap (fun a => sep.data ++ a.data) := by
  induction items generalizing acc with
  | nil => simp [String.intercalate.go]
  | cons a rest ih =>
    simp only [String.intercalate.go]
    rw [ih]
    simp [String.data_append, List.append_assoc]

/-- Characters of the query string that `$.param` builds. -/
theorem param_data (kv : String × String) (rest : List (String × String)) :
    (param (kv :: rest)).data
      = ((encodeURIComponent kv.1).data ++ '=' :: (encodeURIComponent kv.2).data)
        ++ rest.flatMap (fun x =>
            '&' :: ((encodeURIComponent x.1).data ++ '=' :: (encodeURIComponent x.2).data)) := by
  unfold param
  simp only [List.map_cons, String.intercalate]
  rw [intercalate_go_data]
  simp [String.data_append, List.flatMap_map]

theorem char_toNat_lt (c : Char) : c.toNat < 0x110000 := by
  have h := c.valid
  unfold UInt32.isValidChar Nat.isValidChar at h
  show c.val.toNat < 0x110000
  omega

theorem utf8Bytes_lt (c : Char) : ∀ b ∈ utf8Bytes c, b < 256 := by
  have h := char_toNat_lt c
  intro b hb
  unfold utf8Bytes at hb
  simp only at hb
  split at hb
  · simp at hb; omega
  · split at hb
    · simp at hb; omega
    · split at hb
      · simp at hb; omega
      · simp at hb; omega

theorem hexValue_hexDigit : ∀ d, d < 16 → hexValue (hexDigit d) = d := by decide

theorem hexDigit_plain : ∀ d, d < 16 →
    hexDigit d ≠ '&' ∧ hexDigit d ≠ '=' ∧ hexDigit d ≠ '?' ∧ hexDigit d ≠ '+' ∧
      hexDigit d ≠ '%' := by
  decide

/-- A character `encodeURIComponent` keeps is none of the separators. -/
theorem unreserved_plain (c : Char) (h : isUriUnreserved c = true) :
    c ≠ '&' ∧ c ≠ '=' ∧ c ≠ '?' ∧ c ≠ '+' ∧ c ≠ '%' ∧ c.toNat < 0x80 := by
  refine ⟨?_, ?_, ?_, ?_, ?_, ?_⟩
  · rintro rfl; revert h; decide
  · rintro rfl; revert h; decide
  · rintro rfl; revert h; decide
  · rintro rfl; revert h; decide
  · rintro rfl; revert h; decide
  · simp only [isUriUnreserved, Bool.or_eq_true, Bool.and_eq_true, decide_eq_true_eq,
      beq_iff_eq] at h
    omega

/-- No separator occurs in what `encodeURIComponent` writes for a character. -/
theorem encodeChar_plain (c : Char) :
    ∀ x ∈ encodeChar c, x ≠ '&' ∧ x ≠ '=' ∧ x ≠ '?' := by
  intro x hx
  unfold encodeChar at hx
  split at hx
  · rename_i hu
    simp only [List.mem_singleton] at hx
    subst hx
    exact ⟨(unreserved_plain x hu).1, (unreserved_plain x hu).2.1, (unreserved_plain x hu).2.2.1⟩
  · simp only [List.mem_flatMap] at hx
    obtain ⟨b, hb, hxb⟩ := hx
    have hb256 := utf8Bytes_lt c b hb
    simp only [percentByte, List.mem_cons, List.mem_singleton, List.not_mem_nil, or_false] at hxb
    rcases hxb with h | h | h
    · subst h; decide
    · subst h
      have := hexDigit_plain (b / 16) (by omega)
      exact ⟨this.1, this.2.1, this.2.2.1⟩
    · subst h
      have := hexDigit_plain (b % 16) (by omega)
      exact ⟨this.1, this.2.1, this.2.2.1⟩

theorem encodeURIComponent_plain (s : String) :
    ∀ x ∈ (encodeURIComponent s).data, x ≠ '&' ∧ x ≠ '=' ∧ x ≠ '?' := by
  intro x hx
  simp only [encodeURIComponent, List.mem_flatMap] at hx
  obtain ⟨c, _, hxc⟩ := hx
  exact encodeChar_plain c x hxc

theorem unescapeBytes_cons (c : Char) (rest : List Char) :
    unescapeBytes (c :: rest)
      = if c = '%' then
          match rest with
          | a :: b :: rest2 => (hexValue a * 16 + hexValue b) :: unescapeBytes rest2
          | _ => []
        else if c = '+' then 32 :: unescapeBytes rest
        else c.toNat :: unescapeBytes rest := by
  cases rest with
  | nil => rfl
  | cons a r =>
    cases r with
    | nil => rfl
    | cons b r2 => rfl

theorem unescapeBytes_percentByte (b : Nat) (hb : b < 256) (rest : List Char) :
    unescapeBytes (percentByte b ++ rest) = b :: unescapeBytes rest := by
  simp only [percentByte, List.cons_append, List.nil_append, unescapeBytes, if_true]
  rw [hexValue_hexDigit (b / 16) (by omega), hexValue_hexDigit (b % 16) (by omega)]
  congr 1
  omega

/-- Unescaping what was written for a character gives its UTF-8 bytes. -/
theorem unescapeBytes_encodeChar (c : Char) (rest : List Char) :
    unescapeBytes (encodeChar c ++ rest) = utf8Bytes c ++ unescapeBytes rest := by
  unfold encodeChar
  split
  · rename_i hu
    obtain ⟨_, _, _, hplus, hpct, hlt⟩ := unreserved_plain c hu
    rw [List.singleton_append, unescapeBytes_cons, if_neg hpct, if_neg hplus]
    simp [utf8Bytes, hlt]
  · have hlt := utf8Bytes_lt c
    have h := char_toNat_lt c
    unfold utf8Bytes at hlt ⊢
    simp only at hlt ⊢
    split
    · simp only [List.flatMap_cons, List.flatMap_nil, List.append_nil, List.cons_append,
        List.nil_append]
      rw [unescapeBytes_percentByte _ (by omega)]
    · split
      · simp only [List.flatMap_cons, List.flatMap_nil, List.append_nil, List.cons_append,
          List.nil_append, List.append_assoc]
        rw [unescapeBytes_percentByte _ (by omega), unescapeBytes_percentByte _ (by omega)]
      · split
        · simp only [List.flatMap_cons, List.flatMap_nil, List.append_nil, List.cons_append,
            List.nil_append, List.append_assoc]
          rw [unescapeBytes_percentByte _ (by omega), unescapeBytes_percentByte _ (by omega),
            unescapeBytes_percentByte _ (by omega)]
        · simp only [List.flatMap_cons, List.flatMap_nil, List.append_nil, List.cons_append,
            List.nil_append, List.append_assoc]
          rw [unescapeBytes_percentByte _ (by omega), unescapeBytes_percentByte _ (by omega),
            unescapeBytes_percentByte _ (by omega), unescapeBytes_percentByte _ (by omega)]

/-- Reading the UTF-8 bytes of a character adds the character. -/
theorem utf8Step_utf8Bytes (c : Char) (out : List Char) :
    (utf8Bytes c).foldl utf8Step { out := out, acc := 0, need := 0 }
      = { out := out ++ [c], acc := 0, need := 0 } := by
  have h := char_toNat_lt c
  have hc : ∀ n, n = c.toNat → Char.ofNat n = c := fun n hn => by rw [hn, Char.ofNat_toNat]
  unfold utf8Bytes
  simp only
  split
  · rename_i h1
    simp [List.foldl, utf8Step, h1, hc]
  · split
    · rename_i h1 h2
      have e1 : ¬ (192 + c.toNat / 64 < 128) := by omega
      have e2 : 192 + c.toNat / 64 < 224 := by omega
      simp only [List.foldl, utf8Step, if_true, e1, e2, if_false, one_ne_zero]
      rw [hc _ (by omega)]
    · split
      · rename_i h1 h2 h3
        have e1 : ¬ (224 + c.toNat / 4096 < 128) := by omega
        have e2 : ¬ (224 + c.toNat / 4096 < 224) := by omega
        have e3 : 224 + c.toNat / 4096 < 240 := by omega
        simp [List.foldl, utf8Step, e1, e2, e3]
        exact hc _ (by omega)
      · rename_i h1 h2 h3
        have e1 : ¬ (240 + c.toNat / 262144 < 128) := by omega
        have e2 : ¬ (240 + c.toNat / 262144 < 224) := by omega
        have e3 : ¬ (240 + c.toNat / 262144 < 240) := by omega
        simp [List.foldl, utf8Step, e1, e2, e3]
        exact hc _ (by omega)

theorem utf8Step_chars (cs : List Char) (out : List Char) :
    (cs.flatMap utf8Bytes).foldl utf8Step { out := out, acc := 0, need := 0 }
      = { out := out ++ cs, acc := 0, need := 0 } := by
  induction cs generalizing out with
  | nil => simp
  | cons c rest ih =>
    simp only [List.flatMap_cons, List.foldl_append]
    rw [utf8Step_utf8Bytes, ih]
    simp

theorem unescapeBytes_chars (cs : List Char) :
    unescapeBytes (cs.flatMap encodeChar) = cs.flatMap utf8Bytes := by
  induction cs with
  | nil => rfl
  | cons c rest ih =>
    simp only [List.flatMap_cons]
    rw [unescapeBytes_encodeChar, ih]

theorem decode_encode_chars (cs : List Char) :
    utf8Decode (unescapeBytes (cs.flatMap encodeChar)) = cs := by
  unfold utf8Decode
  rw [unescapeBytes_chars, utf8Step_chars]
  simp

/-- Decoding what `encodeURIComponent` writes gives the text back. -/
theorem decodeComponent_encodeURIComponent (s : String) :
    decodeComponent (encodeURIComponent s).data = s := by
  unfold decodeComponent encodeURIComponent
  simp only [String.toList]
  rw [decode_encode_chars]

theorem splitOn_plain (sep : Char) (a : List Char) (ha : ∀ x ∈ a, x ≠ sep) :
    splitOn sep a = [a] := by
  induction a with
  | nil => rfl
  | cons c rest ih =>
    have hc : c ≠ sep := ha c (List.mem_cons_self c rest)
    have hr := ih (fun x hx => ha x (List.mem_cons_of_mem c hx))
    simp [splitOn, hc, hr]

theorem splitOn_append (sep : Char) (a b : List Char) (ha : ∀ x ∈ a, x ≠ sep) :
    splitOn sep (a ++ sep :: b) = a :: splitOn sep b := by
  induction a with
  | nil => simp [splitOn]
  | cons c rest ih =>
    have hc : c ≠ sep := ha c (List.mem_cons_self c rest)
    have hr := ih (fun x hx => ha x (List.mem_cons_of_mem c hx))
    simp [splitOn, hc, hr]

/-- Splitting a text of `sep`-free items joined by `sep` gives the items. -/
theorem splitOn_joined (sep : Char) (a : List Char) (rest : List (List Char))
    (ha : ∀ x ∈ a, x ≠ sep) (hrest : ∀ item ∈ rest, ∀ x ∈ item, x ≠ sep) :
    splitOn sep (a ++ rest.flatMap (fun item => sep :: item)) = a :: rest := by
  induction rest generalizing a with
  | nil => simpa using splitOn_plain sep a ha
  | cons b more ih =>
    simp only [List.flatMap_cons, List.cons_append]
    rw [splitOn_append sep a _ ha,
      ih b (hrest b (List.mem_cons_self b more))
        (fun item hi => hrest item (List.mem_cons_of_mem b hi))]

theorem takeWhile_append_sep (sep : Char) (a b : List Char) (ha : ∀ x ∈ a, x ≠ sep) :
    (a ++ sep :: b).takeWhile (fun c => c != sep) = a ∧
    ((a ++ sep :: b).dropWhile (fun c => c != sep)).drop 1 = b := by
  induction a with
  | nil => simp [List.takeWhile, List.dropWhile]
  | cons c rest ih =>
    have hc : c ≠ sep := ha c (List.mem_cons_self c rest)
    have hr := ih (fun x hx => ha x (List.mem_cons_of_mem c hx))
    have hb : (c != sep) = true := by simpa using hc
    rw [List.cons_append, List.takeWhile_cons, List.dropWhile_cons, if_pos hb, if_pos hb]
    exact ⟨by rw [hr.1], hr.2⟩

/-- Reading one item that `$.param` wrote gives the pair back. -/
theorem queryItem_encoded (kv : String × String) :
    queryItem ((encodeURIComponent kv.1).data ++ '=' :: (encodeURIComponent kv.2).data) = kv := by
  have h := takeWhile_append_sep '=' (encodeURIComponent kv.1).data (encodeURIComponent kv.2).data
    (fun x hx => (encodeURIComponent_plain kv.1 x hx).2.1)
  unfold queryItem
  rw [h.1, h.2, decodeComponent_encodeURIComponent, decodeComponent_encodeURIComponent]

theorem item_no_amp (kv : String × String) :
    ∀ x ∈ (encodeURIComponent kv.1).data ++ '=' :: (encodeURIComponent kv.2).data, x ≠ '&' := by
  intro x hx
  simp only [List.mem_append, List.mem_cons] at hx
  rcases hx with h | h | h
  · exact (encodeURIComponent_plain kv.1 x h).1
  · subst h; decide
  · exact (encodeURIComponent_plain kv.2 x h).1

/-- Reading the query string that `$.param` wrote for a non-empty parameter
list gives the list back. -/
theorem queryParams_param (kv : String × String) (rest : List (String × String)) :
    queryParams ("/products" ++ "?" ++ param (kv :: rest)) = kv :: rest := by
  have hq : urlQuery ("/products" ++ "?" ++ param (kv :: rest)) = (param (kv :: rest)).data := by
    unfold urlQuery
    simp only [String.toList, String.data_append]
    rfl
  have hne : (param (kv :: rest)).data ≠ [] := by
    rw [param_data]
    simp
  unfold queryParams
  rw [hq]
  have hemp : (param (kv :: rest)).data.isEmpty = false := by
    cases hd : (param (kv :: rest)).data with
    | nil => exact absurd hd hne
    | cons c cs => rfl
  rw [hemp]
  simp only [Bool.false_eq_true, if_false]
  rw [param_data]
  have hsplit := splitOn_joined '&'
    ((encodeURIComponent kv.1).data ++ '=' :: (encodeURIComponent kv.2).data)
    (rest.map fun x => (encodeURIComponent x.1).data ++ '=' :: (encodeURIComponent x.2).data)
    (item_no_amp kv)
    (by
      intro item hi
      simp only [List.mem_map] at hi
      obtain ⟨x, _, rfl⟩ := hi
      exact item_no_amp x)
  rw [List.flatMap_map] at hsplit
  rw [hsplit]
  simp only [List.map_cons, List.map_map, queryItem_encoded, List.cons.injEq, true_and]
  conv_rhs => rw [← List.map_id rest]
  apply List.map_congr_left
  intro x _
  exact queryItem_encoded x

/-- The parameters the Search handler collects: the filter fields that are
not empty, in the order name, description, price. -/
theorem search_params_eq (p : Page) :
    search_params p
      = [("name", p.product_name), ("description", p.product_description),
          ("price", p.product_price)].filter (fun kv => kv.2 ≠ "") := by
  unfold search_params
  by_cases h1 : p.product_name = "" <;> by_cases h2 : p.product_description = "" <;>
    by_cases h3 : p.product_price = "" <;> simp [h1, h2, h3, List.filter]

/-- The query string of a non-empty parameter list is not empty. -/
theorem param_ne_empty (params : List (String × String)) (h : params ≠ []) :
    param params ≠ "" := by
  cases params with
  | nil => exact absurd rfl h
  | cons kv rest =>
    intro hq
    have hd := param_data kv rest
    rw [hq] at hd
    simp at hd

/-- The URL of the Search request. -/
theorem search_url (p : Page) :
    (search_click p).2.url
      = (if search_params p = [] then "/products"
          else "/products" ++ "?" ++ param (search_params p)) := by
  by_cases he : search_params p = []
  · simp [search_click, he, param]
    rfl
  · have hne := param_ne_empty _ he
    simp only [search_click, he, hne, ne_eq, not_false_eq_true, if_true, if_false]
    rw [String.append_assoc]

/-- C5: the Search click issues a GET whose URL has the path `/products`; the
query parameters that the URL carries, read back from its query string, are
exactly those of the three filter fields that are not empty, each with the
value of its field, in the order name, description, price, and none of them
is a parameter for id or likes; when the three filter fields are empty the
URL is exactly `/products`, with no `?`. -/
theorem search_request_filters (p : Page) :
    (search_click p).2.type = "GET" ∧
    urlPath (search_click p).2.url = "/products" ∧
    queryParams (search_click p).2.url
      = [("name", p.product_name), ("description", p.product_description),
          ("price", p.product_price)].filter (fun kv => kv.2 ≠ "") ∧
    (∀ kv ∈ queryParams (search_click p).2.url, kv.1 ≠ "id" ∧ kv.1 ≠ "likes") ∧
    (p.product_name = "" → p.product_description = "" → p.product_price = "" →
      (search_click p).2.url = "/products") := by
  have hurl := search_url p
  have hparams := search_params_eq p
  have hq : queryParams (search_click p).2.url = search_params p := by
    rw [hurl]
    cases hsp : search_params p with
    | nil => simp; decide
    | cons kv rest =>
      simp only [List.cons_ne_nil, if_false, reduceCtorEq]
      exact queryParams_param kv rest
  refine ⟨rfl, ?_, hq.trans hparams, ?_, ?_⟩
  · rw [hurl]
    split
    · decide
    · unfold urlPath
      simp only [String.toList, String.data_append]
      rfl
  · intro kv hkv
    rw [hq, hparams] at hkv
    have hmem := (List.mem_filter.mp hkv).1
    simp only [List.mem_cons, List.mem_singleton, List.not_mem_nil, or_false] at hmem
    rcases hmem with h | h | h <;> subst h <;> constructor <;> dsimp only <;> decide
  · intro h1 h2 h3
    have he : search_params p = [] := by simp [hparams, h1, h2, h3]
    rw [hurl, if_pos he]

/-- C5, evaluated: no filter gives `/products`; a name made of separators,
a description and a price with a space and non-ASCII characters are escaped
in the URL and read back as they were typed, with no parameter for id or
likes. -/
theorem search_request_filters_witness :
    (search_click cleared).2.url = "/products" ∧
    (search_click { loaded with product_name := "x&id=5&likes=9", product_price := "€ 5" }).2.url
      = "/products?name=x%26id%3D5%26likes%3D9&description=blue&price=%E2%82%AC%205" ∧
    queryParams
        (search_click { loaded with product_name := "x&id=5&likes=9", product_price := "€ 5" }).2.url
      = [("name", "x&id=5&likes=9"), ("description", "blue"), ("price", "€ 5")] :=
  ⟨(search_request_filters cleared).2.2.2.2 rfl rfl rfl, by decide,
    (search_request_filters
      { loaded with product_name := "x&id=5&likes=9", product_price := "€ 5" }).2.2.1.trans
      (by decide)⟩

/-! ## The search loop -/

theorem string_join_cons (a : String) (l : List String) :
    String.join (a :: l) = a ++ String.join l := by
  have key : ∀ (l : List String) (acc : String),
      List.foldl (fun r s => r ++ s) acc l = acc ++ List.foldl (fun r s => r ++ s) "" l := by
    intro l
    induction l with
    | nil => intro acc; simp
    | cons b rest ih =>
      intro acc
      simp only [List.foldl_cons]
      rw [ih (acc ++ b), ih ("" ++ b), String.empty_append, String.append_assoc]
  show List.foldl (fun r s => r ++ s) ("" ++ a) l = a ++ List.foldl (fun r s => r ++ s) "" l
  rw [String.empty_append, key]

/-- The search loop, from index `i` on: `table` grows by one row per record,
in order, and `firstProduct` is the record met at index 0, if any. -/
theorem forEach_search_each (res : List Product) (i : Nat) (st : String × Option Product) :
    forEach search_each res i st
      = (st.1 ++ String.join ((res.enumFrom i).map fun ir => search_row ir.2 ir.1),
          match res with
          | [] => st.2
          | first :: _ => if i = 0 then some first else st.2) := by
  induction res generalizing i st with
  | nil => simp [forEach, String.join]
  | cons x rest ih =>
    simp only [forEach, List.enumFrom_cons, List.map_cons, string_join_cons]
    rw [ih]
    cases rest with
    | nil => simp [search_each, String.append_assoc]
    | cons y more => simp [search_each, String.append_assoc]

/-! ## The results table -/

theorem lex_in_tag (ts : List Token) (buf name : List Char) (h : ∀ x ∈ name, x ≠ '>') :
    name.foldl lexStep { tokens := ts, buf := buf, inTag := true }
      = { tokens := ts, buf := buf ++ name, inTag := true } := by
  induction name generalizing buf with
  | nil => simp
  | cons c rest ih =>
    have hc : c ≠ '>' := h c (List.mem_cons_self c rest)
    simp only [List.foldl_cons, lexStep, if_true, hc, if_false]
    rw [ih _ (fun x hx => h x (List.mem_cons_of_mem c hx))]
    simp

theorem lex_in_text (ts : List Token) (buf t : List Char) (h : ∀ x ∈ t, x ≠ '<') :
    t.foldl lexStep { tokens := ts, buf := buf, inTag := false }
      = { tokens := ts, buf := buf ++ t, inTag := false } := by
  induction t generalizing buf with
  | nil => simp
  | cons c rest ih =>
    have hc : c ≠ '<' := h c (List.mem_cons_self c rest)
    simp only [List.foldl_cons, lexStep, Bool.false_eq_true, if_false, hc]
    rw [ih _ (fun x hx => h x (List.mem_cons_of_mem c hx))]
    simp

/-- Reading a tag from between two pieces adds the tag. -/
theorem lex_tag (ts : List Token) (name rest : List Char) (h : ∀ x ∈ name, x ≠ '>') :
    ('<' :: (name ++ '>' :: rest)).foldl lexStep (lexed ts)
      = rest.foldl lexStep (lexed (ts ++ [.tag name])) := by
  simp only [List.foldl_cons, List.foldl_append, lexed, lexStep, Bool.false_eq_true, if_false,
    if_true, List.isEmpty_nil]
  rw [lex_in_tag ts [] name h]
  simp [lexStep]

/-- Reading a run of text and the tag after it adds both. -/
theorem lex_text_tag (ts : List Token) (t name rest : List Char) (ht : ∀ x ∈ t, x ≠ '<')
    (h : ∀ x ∈ name, x ≠ '>') :
    (t ++ '<' :: (name ++ '>' :: rest)).foldl lexStep (lexed ts)
      = rest.foldl lexStep (lexed (ts ++ textTokens t ++ [.tag name])) := by
  rw [List.foldl_append]
  unfold lexed
  rw [lex_in_text ts [] t ht]
  simp only [List.nil_append, List.foldl_cons, List.foldl_append, lexStep, Bool.false_eq_true,
    if_false, if_true]
  rw [lex_in_tag _ [] name h]
  cases t with
  | nil => simp [lexStep, textTokens]
  | cons c cs => simp [lexStep, textTokens]

/-- Reading one cell adds its pieces. -/
theorem lex_cell (ts : List Token) (t rest : List Char) (ht : ∀ x ∈ t, x ≠ '<') :
    (cellChars t rest).foldl lexStep (lexed ts)
      = rest.foldl lexStep (lexed (ts ++ cellTokens t)) := by
  unfold cellChars
  have h1 := lex_tag ts ['t', 'd'] (t ++ '<' :: '/' :: 't' :: 'd' :: '>' :: rest) (by decide)
  have h2 := lex_text_tag (ts ++ [.tag ['t', 'd']]) t ['/', 't', 'd'] rest ht (by decide)
  simp only [List.cons_append, List.nil_append] at h1 h2
  rw [h1, h2]
  simp [cellTokens, List.append_assoc]

theorem digitChar_ne_gt : ∀ d, d < 10 → Nat.digitChar d ≠ '>' := by decide

theorem toDigitsCore_no_gt (fuel n : Nat) (ds : List Char) (h : ∀ x ∈ ds, x ≠ '>') :
    ∀ x ∈ Nat.toDigitsCore 10 fuel n ds, x ≠ '>' := by
  induction fuel generalizing n ds with
  | zero => simpa [Nat.toDigitsCore] using h
  | succ k ih =>
    have hd : ∀ x ∈ Nat.digitChar (n % 10) :: ds, x ≠ '>' := by
      intro x hx
      rcases List.mem_cons.mp hx with hx | hx
      · rw [hx]
        exact digitChar_ne_gt (n % 10) (Nat.mod_lt n (by decide))
      · exact h x hx
    simp only [Nat.toDigitsCore]
    split
    · exact hd
    · exact ih _ _ hd

/-- The decimal text of a row index has no `>`. -/
theorem index_no_gt (i : Nat) : ∀ x ∈ (toString i).data, x ≠ '>' := by
  show ∀ x ∈ (Nat.toDigits 10 i).asString.data, x ≠ '>'
  simpa [List.asString] using toDigitsCore_no_gt (i + 1) i [] (by simp)

/-- The characters of the row that the search loop writes for a record. -/
theorem search_row_data (r : Product) (i : Nat) (rest : List Char) :
    (search_row r i).data ++ rest
      = '<' :: ('t' :: 'r' :: ' ' :: 'i' :: 'd' :: '=' :: '"' :: 'r' :: 'o' :: 'w' :: '_'
          :: ((toString i).data ++ ['"']) ++ '>' ::
        cellChars (templateText r.id).data (cellChars (templateText r.name).data
          (cellChars (templateText r.description).data (cellChars (templateText r.price).data
            (cellChars (templateText r.likes).data ('<' :: (['/', 't', 'r'] ++ '>' :: rest))))))) := by
  simp [search_row, String.data_append, List.append_assoc, cellChars]

/-- Reading the cells of a row, one after the other. -/
theorem lex_cells (ts : List Token) (texts : List (List Char)) (rest : List Char)
    (h : ∀ t ∈ texts, ∀ x ∈ t, x ≠ '<') :
    (texts.foldr cellChars rest).foldl lexStep (lexed ts)
      = rest.foldl lexStep (lexed (ts ++ texts.flatMap cellTokens)) := by
  induction texts generalizing ts with
  | nil => simp
  | cons t more ih =>
    simp only [List.foldr_cons, List.flatMap_cons]
    rw [lex_cell ts t _ (h t (List.mem_cons_self t more)),
      ih _ (fun u hu => h u (List.mem_cons_of_mem t hu)), List.append_assoc]

/-- Reading the row of a record with plain texts adds the pieces of the row. -/
theorem lex_row (ts : List Token) (r : Product) (i : Nat) (rest : List Char)
    (h : ∀ t ∈ rowChars r, ∀ x ∈ t, x ≠ '<') :
    ((search_row r i).data ++ rest).foldl lexStep (lexed ts)
      = rest.foldl lexStep (lexed (ts ++ rowTokens (toString i).data (rowChars r))) := by
  rw [search_row_data]
  rw [lex_tag ts _ _ (by
    intro x hx
    simp only [List.mem_cons, List.mem_append, List.mem_singleton, List.not_mem_nil,
      or_false] at hx
    rcases hx with h | h | h | h | h | h | h | h | h | h | h | h | h
    all_goals first
      | (subst h; decide)
      | exact index_no_gt i x h)]
  have hc := lex_cells (ts ++ [.tag ('t' :: 'r' :: ' ' :: 'i' :: 'd' :: '=' :: '"' :: 'r' :: 'o'
      :: 'w' :: '_' :: ((toString i).data ++ ['"']))]) (rowChars r)
    ('<' :: (['/', 't', 'r'] ++ '>' :: rest)) h
  simp only [rowChars, List.foldr_cons, List.foldr_nil] at hc
  rw [hc, lex_tag _ _ _ (by decide)]
  simp [rowTokens, rowChars, List.append_assoc]

theorem string_join_data (l : List String) :
    (String.join l).data = l.flatMap String.data := by
  induction l with
  | nil => rfl
  | cons a rest ih => rw [string_join_cons, String.data_append, ih, List.flatMap_cons]

/-- Reading the rows that the search loop writes adds the pieces of each row,
in order. -/
theorem lex_rows (ts : List Token) (res : List Product) (i : Nat) (rest : List Char)
    (h : ∀ r ∈ res, ∀ t ∈ rowChars r, ∀ x ∈ t, x ≠ '<') :
    (((res.enumFrom i).map fun ir => search_row ir.2 ir.1).flatMap String.data ++ rest).foldl
        lexStep (lexed ts)
      = rest.foldl lexStep (lexed (ts ++ (res.enumFrom i).flatMap fun ir =>
          rowTokens (toString ir.1).data (rowChars ir.2))) := by
  induction res generalizing ts i with
  | nil => simp
  | cons r more ih =>
    simp only [List.enumFrom_cons, List.map_cons, List.flatMap_cons, List.append_assoc]
    rw [lex_row ts r i _ (h r (List.mem_cons_self r more)),
      ih _ _ (fun q hq => h q (List.mem_cons_of_mem r hq)), List.append_assoc]

theorem templateText_eq_cellText (v : JSValue) : templateText v = cellText v := by
  cases v with
  | bool b => cases b <;> rfl
  | _ => rfl

theorem rowChars_eq (r : Product) : (rowChars r).map String.mk = rowTexts r := by
  simp [rowChars, rowTexts, templateText_eq_cellText]

theorem plainRecord_chars (r : Product) (h : plainRecord r = true) :
    ∀ t ∈ rowChars r, ∀ x ∈ t, x ≠ '<' := by
  intro t ht x hx
  have hall : ∀ s ∈ rowTexts r, plainText s = true := by
    simpa [plainRecord] using h
  have ht2 : String.mk t ∈ rowTexts r := by
    rw [← rowChars_eq]
    exact List.mem_map_of_mem String.mk ht
  have hp := hall _ ht2
  simp only [plainText, String.toList, List.all_eq_true, Bool.and_eq_true, bne_iff_ne] at hp
  exact (hp x hx).1.1.1

/-- The table reader takes the cells of the open row one after the other. -/
theorem table_cells (rows : List (List String)) (cells : List String)
    (texts : List (List Char)) (rest : List Token) :
    (texts.flatMap cellTokens ++ rest).foldl tableStep
        { rows := rows, row := some cells, cell := none, inBody := true }
      = rest.foldl tableStep
        { rows := rows, row := some (cells ++ texts.map String.mk), cell := none,
          inBody := true } := by
  induction texts generalizing cells with
  | nil => simp
  | cons t more ih =>
    have hstep : (cellTokens t).foldl tableStep
          { rows := rows, row := some cells, cell := none, inBody := true }
        = { rows := rows, row := some (cells ++ [String.mk t]), cell := none,
            inBody := true } := by
      cases t with
      | nil => simp [cellTokens, textTokens, tableStep, tagName]
      | cons c cs => simp [cellTokens, textTokens, tableStep, tagName]
    simp only [List.flatMap_cons, List.append_assoc, List.foldl_append, List.map_cons]
    rw [hstep]
    have := ih (cells ++ [String.mk t])
    simp only [List.foldl_append, List.append_assoc, List.singleton_append] at this
    rw [this]

/-- The table reader takes one row written by the search loop. -/
theorem table_row (rows : List (List String)) (idx : List Char) (texts : List (List Char))
    (rest : List Token) :
    (rowTokens idx texts ++ rest).foldl tableStep (inBody rows)
      = rest.foldl tableStep (inBody (rows ++ [texts.map String.mk])) := by
  have hname : tagName ('t' :: 'r' :: ' ' :: 'i' :: 'd' :: '=' :: '"' :: 'r' :: 'o' :: 'w' :: '_'
      :: (idx ++ ['"'])) = "tr" := rfl
  simp only [rowTokens, List.cons_append, List.foldl_cons, List.append_assoc]
  have h1 : tableStep (inBody rows) (.tag ('t' :: 'r' :: ' ' :: 'i' :: 'd' :: '=' :: '"' :: 'r'
      :: 'o' :: 'w' :: '_' :: (idx ++ ['"'])))
      = { rows := rows, row := some [], cell := none, inBody := true } := by
    simp [tableStep, hname, inBody]
  rw [h1, table_cells]
  simp [tableStep, tagName, inBody]

theorem table_rows (rows : List (List String)) (res : List Product) (i : Nat)
    (rest : List Token) :
    (((res.enumFrom i).flatMap fun ir => rowTokens (toString ir.1).data (rowChars ir.2))
        ++ rest).foldl tableStep (inBody rows)
      = rest.foldl tableStep (inBody (rows ++ res.map rowTexts)) := by
  induction res generalizing rows i with
  | nil => simp
  | cons r more ih =>
    simp only [List.enumFrom_cons, List.flatMap_cons, List.append_assoc, List.map_cons]
    rw [table_row, ih, rowChars_eq]
    simp

set_option maxRecDepth 100000 in
theorem lex_head : search_table_head.data.foldl lexStep (lexed []) = lexed headTokens := by
  decide

set_option maxRecDepth 100000 in
theorem table_head :
    headTokens.foldl tableStep { rows := [], row := none, cell := none, inBody := false }
      = inBody [] := by
  decide

/-- Rows read from the table that the search loop writes for plain records. -/
theorem tableRows_search (res : List Product) (h : ∀ r ∈ res, plainRecord r = true) :
    tableRows (search_table_head
        ++ String.join ((res.enumFrom 0).map fun ir => search_row ir.2 ir.1)
        ++ "</tbody></table>")
      = res.map rowTexts := by
  have hfoot : ∀ ts, ("</tbody></table>".data).foldl lexStep (lexed ts)
      = lexed (ts ++ [.tag ['/', 't', 'b', 'o', 'd', 'y'], .tag ['/', 't', 'a', 'b', 'l', 'e']]) := by
    intro ts
    have h1 := lex_tag ts ['/', 't', 'b', 'o', 'd', 'y'] ('<' :: (['/', 't', 'a', 'b', 'l', 'e']
      ++ '>' :: [])) (by decide)
    have h2 := lex_tag (ts ++ [.tag ['/', 't', 'b', 'o', 'd', 'y']]) ['/', 't', 'a', 'b', 'l', 'e']
      [] (by decide)
    have hd : "</tbody></table>".data = '<' :: (['/', 't', 'b', 'o', 'd', 'y'] ++ '>' ::
      ('<' :: (['/', 't', 'a', 'b', 'l', 'e'] ++ '>' :: []))) := rfl
    rw [hd, h1, h2]
    simp
  have hlex : lex (search_table_head
        ++ String.join ((res.enumFrom 0).map fun ir => search_row ir.2 ir.1)
        ++ "</tbody></table>").data
      = headTokens ++ ((res.enumFrom 0).flatMap fun ir =>
          rowTokens (toString ir.1).data (rowChars ir.2))
        ++ [.tag ['/', 't', 'b', 'o', 'd', 'y'], .tag ['/', 't', 'a', 'b', 'l', 'e']] := by
    have hstate : ((search_table_head
          ++ String.join ((res.enumFrom 0).map fun ir => search_row ir.2 ir.1)
          ++ "</tbody></table>").data).foldl lexStep (lexed [])
        = lexed (headTokens ++ ((res.enumFrom 0).flatMap fun ir =>
            rowTokens (toString ir.1).data (rowChars ir.2))
          ++ [.tag ['/', 't', 'b', 'o', 'd', 'y'], .tag ['/', 't', 'a', 'b', 'l', 'e']]) := by
      rw [String.data_append, String.data_append, string_join_data, List.append_assoc,
        List.foldl_append, lex_head,
        lex_rows headTokens res 0 _ (fun r hr => plainRecord_chars r (h r hr)), hfoot]
    have hdef : ∀ s, lex s
        = if (s.foldl lexStep (lexed [])).inTag || (s.foldl lexStep (lexed [])).buf.isEmpty
          then (s.foldl lexStep (lexed [])).tokens
          else (s.foldl lexStep (lexed [])).tokens ++ [.text (s.foldl lexStep (lexed [])).buf] :=
      fun _ => rfl
    rw [hdef, hstate]
    simp [lexed]
  unfold tableRows
  rw [String.toList, hlex, List.append_assoc, List.foldl_append, table_head, table_rows]
  simp [tableStep, tagName, inBody]

/-- The markup in the results area after a successful Search. -/
theorem search_results_eq (res : List Product) (p : Page) :
    (perform (.search (.done res)) p).search_results
      = search_table_head
        ++ String.join ((res.enumFrom 0).map fun ir => search_row ir.2 ir.1)
        ++ "</tbody></table>" := by
  simp only [perform, search_done, forEach_search_each]
  cases res with
  | nil => simp [update_form_data]
  | cons first rest => simp [update_form_data]

set_option maxRecDepth 100000 in
/-- C6 (as stated, refuted): for a list of one record whose description holds
markup, the table shown after a successful Search has two rows, and the row
of the record does not hold its description. -/
theorem injected_record_renders_two_rows :
    [injected].length = 1 ∧
    tableRows (perform (.search (.done [injected])) cleared).search_results
      = [["1", "a", "d", "9", "2"], ["2", "b", "d", "9", "2"]] := by
  decide

/-- C6 (amended): after a successful Search the markup appended to the results
area is the table head, then for each returned record, in the order of the
list, one `tr` element with five `td` elements holding the texts of its id,
name, description, price and likes as they are, then the table end.  For
every list of records whose texts are plain (no `<`, `&`, NUL or CR) the table
so rendered has exactly one body row per record, in the order of the list,
each row holding the texts of that record's id, name, description, price and
likes in that order.  For every list: if it is non-empty the five form fields
hold the fields of the first record and the like button is enabled, if it is
empty the form fields and the like button are as they were; in both cases
the flash message is "Success". -/
theorem search_success_renders (res : List Product) (p : Page) :
    (perform (.search (.done res)) p).search_results
      = search_table_head
        ++ String.join (res.enum.map fun ir =>
            "<tr id=\"row_" ++ toString ir.1 ++ "\">"
              ++ "<td>" ++ cellText ir.2.id ++ "</td>"
              ++ "<td>" ++ cellText ir.2.name ++ "</td>"
              ++ "<td>" ++ cellText ir.2.description ++ "</td>"
              ++ "<td>" ++ cellText ir.2.price ++ "</td>"
              ++ "<td>" ++ cellText ir.2.likes ++ "</td>"
              ++ "</tr>")
        ++ "</tbody></table>" ∧
    ((∀ r ∈ res, plainRecord r = true) →
      tableRows (perform (.search (.done res)) p).search_results = res.map rowTexts) ∧
    (match res with
      | first :: _ =>
        fieldHolds (perform (.search (.done res)) p).product_id first.id ∧
        fieldHolds (perform (.search (.done res)) p).product_name first.name ∧
        fieldHolds (perform (.search (.done res)) p).product_description first.description ∧
        fieldHolds (perform (.search (.done res)) p).product_price first.price ∧
        fieldHolds (perform (.search (.done res)) p).product_likes first.likes ∧
        (perform (.search (.done res)) p).like_btn_disabled = false
      | [] =>
        (perform (.search (.done res)) p).product_id = p.product_id ∧
        (perform (.search (.done res)) p).product_name = p.product_name ∧
        (perform (.search (.done res)) p).product_description = p.product_description ∧
        (perform (.search (.done res)) p).product_price = p.product_price ∧
        (perform (.search (.done res)) p).product_likes = p.product_likes ∧
        (perform (.search (.done res)) p).like_btn_disabled = p.like_btn_disabled) ∧
    (perform (.search (.done res)) p).flash_message = "Success" := by
  refine ⟨?_, ?_, ?_, ?_⟩
  · rw [search_results_eq]
    simp only [search_row, templateText_eq_cellText, List.enum]
  · intro h
    rw [search_results_eq]
    exact tableRows_search res h
  · cases res with
    | nil => simp [perform, search_done, forEach, search_click, empty_flash]
    | cons first rest =>
      simp [perform, search_done, forEach_search_each, update_form_data, fieldHolds_valText]
  · simp [perform, search_done, appendText]

set_option maxRecDepth 100000 in
/-- C6 (amended), evaluated: the answer of the spec's example,
`[{id:1,name:"foo",description:"d",price:"9",likes:2}]`, followed by a second
record, renders two rows with those values and fills the form from the first
record. -/
theorem search_success_renders_witness :
    tableRows (perform (.search (.done
        [{ sample with likes := .number "2" },
          { id := .number "2", name := .string "tea > coffee", description := .string "",
            price := .string "4.5", likes := .number "0" }])) loaded).search_results
      = [["1", "foo", "d", "9", "2"], ["2", "tea > coffee", "", "4.5", "0"]] ∧
    (perform (.search (.done
        [{ sample with likes := .number "2" },
          { id := .number "2", name := .string "tea > coffee", description := .string "",
            price := .string "4.5", likes := .number "0" }])) loaded).product_name = "foo" :=
  ⟨((search_success_renders
      [{ sample with likes := .number "2" },
        { id := .number "2", name := .string "tea > coffee", description := .string "",
          price := .string "4.5", likes := .number "0" }] loaded).2.1 (by decide)).trans
      (by decide),
    (search_success_renders
      [{ sample with likes := .number "2" },
        { id := .number "2", name := .string "tea > coffee", description := .string "",
          price := .string "4.5", likes := .number "0" }] loaded).2.2.1.2.1⟩

/-! ## The like button and the id field -/

theorem displaysId_iff (v : JSValue) : displaysId v = true ↔ valText v ≠ "" := by
  cases v with
  | undefined => simp [displaysId, valText]
  | null => simp [displaysId, valText]
  | bool b => cases b <;> simp [displaysId, valText]
  | number text => simp [displaysId, valText]
  | string s => simp [displaysId, valText]

/-- Id field and like button after the `done` callback of Search. -/
theorem search_done_id_button (res : List Product) (p : Page) :
    (search_done res p).product_id
      = (match res with
        | [] => p.product_id
        | first :: _ => valText first.id) ∧
    (search_done res p).like_btn_disabled
      = (match res with
        | [] => p.like_btn_disabled
        | _ :: _ => false) := by
  cases res with
  | nil => simp [search_done, forEach]
  | cons first rest => simp [search_done, forEach_search_each, update_form_data]

/-- An action that writes the form with a record that carries an id, or that
clears it, leaves the button following the id, whatever the page was. -/
theorem perform_sets_iff (a : Action) (p : Page) (hw : writesForm a = true)
    (ha : carriesId a = true) : buttonFollowsId (perform a p) := by
  unfold buttonFollowsId
  cases a with
  | create o =>
    cases o with
    | done res =>
      have := (displaysId_iff res.id).mp ha
      simp [perform, create_done, update_form_data, this]
    | fail res => simp [writesForm] at hw
  | update o =>
    cases o with
    | done res =>
      have := (displaysId_iff res.id).mp ha
      simp [perform, update_done, update_form_data, this]
    | fail res => simp [writesForm] at hw
  | retrieve o =>
    cases o with
    | done res =>
      have := (displaysId_iff res.id).mp ha
      simp [perform, retrieve_done, update_form_data, this]
    | fail res => simp [perform, retrieve_fail, clear_form_data]
  | delete o =>
    cases o with
    | done res => simp [perform, delete_done, clear_form_data]
    | fail res => simp [writesForm] at hw
  | clear => simp [perform, clear_click, clear_form_data, empty_flash]
  | search o =>
    cases o with
    | done res =>
      cases res with
      | nil => simp [writesForm] at hw
      | cons first rest =>
        have := (displaysId_iff first.id).mp ha
        simp [perform, search_done_id_button, this]
    | fail res => simp [writesForm] at hw
  | like o => simp [writesForm] at hw

/-- An action leaves the id field and the like button as they were, unless it
writes the form. -/
theorem perform_keeps_id_button (a : Action) (p : Page) (hw : writesForm a = false) :
    (perform a p).product_id = p.product_id ∧
    (perform a p).like_btn_disabled = p.like_btn_disabled := by
  cases a with
  | create o =>
    cases o with
    | done res => simp [writesForm] at hw
    | fail res => simp [perform, create_fail, create_click, empty_flash]
  | update o =>
    cases o with
    | done res => simp [writesForm] at hw
    | fail res => simp [perform, update_fail, update_click, empty_flash]
  | retrieve o => simp [writesForm] at hw
  | delete o =>
    cases o with
    | done res => simp [writesForm] at hw
    | fail res => simp [perform, delete_fail, delete_click, empty_flash]
  | clear => simp [writesForm] at hw
  | search o =>
    cases o with
    | done res =>
      cases res with
      | nil => simp [perform, search_done_id_button, search_click, empty_flash]
      | cons first rest => simp [writesForm] at hw
    | fail res => simp [perform, search_fail, search_click, empty_flash]
  | like o =>
    by_cases hid : p.product_id = ""
    · simp [perform, like_click, hid]
    · cases o <;> simp [perform, like_click, hid, like_done, like_fail, empty_flash]

/-- One step other than an edit of the id keeps "a non-empty id field implies
an enabled like button". -/
theorem step_keeps_enabled (s : Step) (p : Page) (hs : s.editsId = false)
    (h : p.product_id ≠ "" → p.like_btn_disabled = false) :
    (s.apply p).product_id ≠ "" → (s.apply p).like_btn_disabled = false := by
  cases s with
  | edit f text =>
    cases f with
    | id => simp [Step.editsId] at hs
    | name => simpa [Step.apply, Page.input] using h
    | description => simpa [Step.apply, Page.input] using h
    | price => simpa [Step.apply, Page.input] using h
    | likes => simpa [Step.apply, Page.input] using h
  | act a =>
    by_cases hw : writesForm a = true
    · cases a with
      | create o =>
        cases o with
        | done res => simp [Step.apply, perform, create_done, update_form_data]
        | fail res => simp [writesForm] at hw
      | update o =>
        cases o with
        | done res => simp [Step.apply, perform, update_done, update_form_data]
        | fail res => simp [writesForm] at hw
      | retrieve o =>
        cases o with
        | done res => simp [Step.apply, perform, retrieve_done, update_form_data]
        | fail res => simp [Step.apply, perform, retrieve_fail, clear_form_data]
      | delete o =>
        cases o with
        | done res => simp [Step.apply, perform, delete_done, clear_form_data]
        | fail res => simp [writesForm] at hw
      | clear => simp [Step.apply, perform, clear_click, clear_form_data, empty_flash]
      | search o =>
        cases o with
        | done res =>
          cases res with
          | nil => simp [writesForm] at hw
          | cons first rest => simp [Step.apply, perform, search_done_id_button]
        | fail res => simp [writesForm] at hw
      | like o => simp [writesForm] at hw
    · have hk := perform_keeps_id_button a p (by simpa using hw)
      simp only [Step.apply, hk.1, hk.2]
      exact h

/-- One step other than an edit of the id, whose record (if any) carries an
id, keeps the button following the id. -/
theorem step_keeps_iff (s : Step) (p : Page) (hs : s.editsId = false)
    (hc : s.carriesId = true) (h : buttonFollowsId p) : buttonFollowsId (s.apply p) := by
  cases s with
  | edit f text =>
    unfold buttonFollowsId at *
    cases f with
    | id => simp [Step.editsId] at hs
    | name => simpa [Step.apply, Page.input] using h
    | description => simpa [Step.apply, Page.input] using h
    | price => simpa [Step.apply, Page.input] using h
    | likes => simpa [Step.apply, Page.input] using h
  | act a =>
    by_cases hw : writesForm a = true
    · exact perform_sets_iff a p hw hc
    · have hk := perform_keeps_id_button a p (by simpa using hw)
      unfold buttonFollowsId at *
      simp only [Step.apply, hk.1, hk.2]
      exact h

theorem run_keeps_enabled (steps : List Step) (p : Page)
    (hs : ∀ s ∈ steps, s.editsId = false)
    (h : p.product_id ≠ "" → p.like_btn_disabled = false) :
    (run steps p).product_id ≠ "" → (run steps p).like_btn_disabled = false := by
  induction steps generalizing p with
  | nil => exact h
  | cons s rest ih =>
    exact ih (s.apply p) (fun t ht => hs t (List.mem_cons_of_mem s ht))
      (step_keeps_enabled s p (hs s (List.mem_cons_self s rest)) h)

theorem run_keeps_iff (steps : List Step) (p : Page)
    (hs : ∀ s ∈ steps, s.editsId = false) (hc : ∀ s ∈ steps, s.carriesId = true)
    (h : buttonFollowsId p) : buttonFollowsId (run steps p) := by
  induction steps generalizing p with
  | nil => exact h
  | cons s rest ih =>
    exact ih (s.apply p) (fun t ht => hs t (List.mem_cons_of_mem s ht))
      (fun t ht => hc t (List.mem_cons_of_mem s ht))
      (step_keeps_iff s p (hs s (List.mem_cons_self s rest))
        (hc s (List.mem_cons_self s rest)) h)

/-- C9 (as stated, refuted): from the cleared form, a Create that succeeds
with a record whose id is the empty string leaves the like button enabled
while the id field is empty; and with the id `7` typed into the cleared form,
a Delete that fails leaves the id field showing `7` while the like button is
disabled. -/
theorem like_enabled_with_empty_id :
    (run [.act (.create (.done { sample with id := .string "" }))] cleared).like_btn_disabled
      = false ∧
    (run [.act (.create (.done { sample with id := .string "" }))] cleared).product_id = "" ∧
    (run [.edit .id "7", .act (.delete (.fail ⟨none⟩))] cleared).product_id = "7" ∧
    (run [.edit .id "7", .act (.delete (.fail ⟨none⟩))] cleared).like_btn_disabled = true := by
  decide

/-- C9 (amended): take any sequence of steps (edits of the name, description,
price and likes inputs by the user, and the seven actions with arbitrary
answers) in which the user does not edit the id input.  Run from the cleared
form, it ends in a state where a non-empty id field implies an enabled like
button; if moreover every success record put in the form carries an id that
displays as a non-empty text, the like button is enabled if and only if the
id field is non-empty.  The same equivalence holds when the sequence is run
from the state that any form-writing completion (a record loaded with such an
id, or the form cleared) leaves behind, whatever the page was before it. -/
theorem like_button_invariant (steps : List Step) (hs : ∀ s ∈ steps, s.editsId = false) :
    ((run steps cleared).product_id ≠ "" → (run steps cleared).like_btn_disabled = false) ∧
    ((∀ s ∈ steps, s.carriesId = true) →
      ((run steps cleared).like_btn_disabled = false ↔ (run steps cleared).product_id ≠ "")) ∧
    ((∀ s ∈ steps, s.carriesId = true) →
      ∀ (p : Page) (a : Action), writesForm a = true → carriesId a = true →
        ((run steps (perform a p)).like_btn_disabled = false ↔
          (run steps (perform a p)).product_id ≠ "")) :=
  ⟨run_keeps_enabled steps cleared hs (fun h => absurd rfl h),
    fun hc => run_keeps_iff steps cleared hs hc (by unfold buttonFollowsId; decide),
    fun hc p a hw ha => run_keeps_iff steps (perform a p) hs hc (perform_sets_iff a p hw ha)⟩

/-- C9 (amended), evaluated: the user types a name, creates, likes, and a
Delete fails: the id shows `1` and the button is enabled; and after an id was
typed into the cleared form, a successful Retrieve restores the equivalence. -/
theorem like_button_invariant_witness :
    ((run [.edit .name "foo", .act (.create (.done sample)), .act (.like (.done sample)),
        .act (.delete (.fail ⟨none⟩))] cleared).like_btn_disabled = false ↔
      (run [.edit .name "foo", .act (.create (.done sample)), .act (.like (.done sample)),
        .act (.delete (.fail ⟨none⟩))] cleared).product_id ≠ "") ∧
    (run [.edit .name "foo", .act (.create (.done sample)), .act (.like (.done sample)),
        .act (.delete (.fail ⟨none⟩))] cleared).product_id = "1" ∧
    ((run [.edit .likes "5"] (perform (.retrieve (.done sample))
        (cleared.input .id "7"))).like_btn_disabled = false ↔
      (run [.edit .likes "5"] (perform (.retrieve (.done sample))
        (cleared.input .id "7"))).product_id ≠ "") :=
  ⟨(like_button_invariant [.edit .name "foo", .act (.create (.done sample)),
      .act (.like (.done sample)), .act (.delete (.fail ⟨none⟩))] (by decide)).2.1 (by decide),
    by decide,
    (like_button_invariant [.edit .likes "5"] (by decide)).2.2 (by decide)
      (cleared.input .id "7") (.retrieve (.done sample)) rfl rfl⟩

/-! ## The request body of Create and Update -/

/-- Rounding to a Number is exact below `2 ^ 53`. -/
theorem roundToDouble_exact (m : Nat) (h : m < 2 ^ 53) : roundToDouble m = some m := by
  unfold roundToDouble
  rw [if_pos h]

/-- What `JSON.stringify` writes for `parseInt(text) || 0`: `0` when the text
has no leading integer; the leading integer itself when its magnitude is below
`2 ^ 53`. -/
theorem likes_json (text : String) :
    (parsedInteger text = none →
      JSON_number (numberOr (parseInt text) (.valueFor false 0)) = .number 0) ∧
    (∀ n : Int, parsedInteger text = some n → n.natAbs < 2 ^ 53 →
      JSON_number (numberOr (parseInt text) (.valueFor false 0)) = .number n) := by
  have hzero : JSON_number (.valueFor false 0) = .number 0 := by
    simp [JSON_number, roundToDouble_exact 0 (by decide)]
  unfold parseInt parsedInteger
  cases hd : parseIntDigits text with
  | none =>
    refine ⟨fun _ => ?_, by simp⟩
    simpa [numberOr, JSNumber.truthy] using hzero
  | some sm =>
    obtain ⟨negative, m⟩ := sm
    refine ⟨by simp, ?_⟩
    intro n hn hlt
    simp only [Option.some.injEq] at hn
    subst hn
    have hm : m < 2 ^ 53 := by
      cases negative <;> simpa using hlt
    by_cases hz : m = 0
    · subst hz
      cases negative <;> simpa [numberOr, JSNumber.truthy] using hzero
    · simp [numberOr, JSNumber.truthy, hz, JSON_number, roundToDouble_exact m hm]

set_option maxRecDepth 100000 in
set_option exponentiation.threshold 2000 in
/-- C10 (as stated, refuted): for the likes text `1` followed by 309 zeros,
which parses to an integer, the `likes` member of the Create body is JSON
`null`, not an integer; and for the text `9007199254740993` the `likes`
member of the Update body is 9007199254740992, another integer than the one
the text parses to. -/
theorem huge_likes_not_sent_as_parsed :
    (parsedInteger hugeLikes).isSome = true ∧
    (create_click { cleared with product_likes := hugeLikes }).2.data
      = .json [("name", .string ""), ("description", .string ""), ("price", .string ""),
          ("likes", .null)] ∧
    parsedInteger "9007199254740993" = some 9007199254740993 ∧
    (update_click { cleared with product_likes := "9007199254740993" }).2.data
      = .json [("name", .string ""), ("description", .string ""), ("price", .string ""),
          ("likes", .number 9007199254740992)] := by
  decide

/-- C10 (amended): for every text in the likes field, the JSON body of the
Create and Update requests has the members name, description, price, likes in
that order, with name, description and price the form values unchanged; the
`likes` member is 0 whenever the field is empty or its text has no leading
integer for `parseInt`, and it is the integer the text parses to whenever
that integer has magnitude below `2 ^ 53`. -/
theorem create_update_body (p : Page) :
    ∃ likes : Json,
      (create_click p).2.data
        = .json [("name", .string p.product_name), ("description", .string p.product_description),
            ("price", .string p.product_price), ("likes", likes)] ∧
      (update_click p).2.data
        = .json [("name", .string p.product_name), ("description", .string p.product_description),
            ("price", .string p.product_price), ("likes", likes)] ∧
      (p.product_likes = "" → likes = .number 0) ∧
      (parsedInteger p.product_likes = none → likes = .number 0) ∧
      (∀ n : Int, parsedInteger p.product_likes = some n → n.natAbs < 2 ^ 53 →
        likes = .number n) := by
  obtain ⟨hnone, hsome⟩ := likes_json p.product_likes
  refine ⟨JSON_number (numberOr (parseInt p.product_likes) (.valueFor false 0)),
    rfl, rfl, ?_, hnone, hsome⟩
  intro he
  apply hnone
  rw [he]
  decide

/-- C10 (amended), evaluated: the likes text `2` of the loaded page is sent
as the integer 2, and the text ` -12abc` parses to -12. -/
theorem create_update_body_witness :
    (create_click loaded).2.data
      = .json [("name", .string "cup"), ("description", .string "blue"), ("price", .string "3"),
          ("likes", .number 2)] ∧
    parsedInteger " -12abc" = some (-12) := by
  obtain ⟨j, hc, _, _, _, hn⟩ := create_update_body loaded
  have h2 : j = .number 2 := hn 2 (by decide) (by decide)
  rw [h2] at hc
  exact ⟨hc, by decide⟩

end RestApi
